import Mathlib

/-!
Shallow embedding of pyFlyDoc (src/pyflydoc/__init__.py), a thin facade over
three SOAP service proxies (session, submission, query).  Remote responses are
inputs to the embedded functions; local state (soap headers, service
locations) is threaded explicitly.
-/

namespace PyFlyDoc

/-! ## Soap header state (suds client options.soapheaders) -/

/-- A SessionHeader complex value: `_create('SessionHeader')` then the
`sessionID` field is assigned; fields are optional because a freshly created
value has them unset. -/
structure SessionHeader where
  sessionID : Option String
deriving DecidableEq, Repr

/-- A QueryHeader complex value built in `browse`. -/
structure QueryHeader where
  queryID : Option String
deriving DecidableEq, Repr

/-- Values stored under a soap-header name. -/
inductive HeaderValue where
  | session (h : SessionHeader)
  | query (q : QueryHeader)
deriving DecidableEq, Repr

/-- `client.options.soapheaders`: initially not a dict (suds default is a
tuple); once `_addHeader` ran it is a dict, modelled as an association list in
insertion order (Python dict preserves insertion order on update). -/
inductive SoapHeaders where
  | notDict
  | dict (entries : List (String × HeaderValue))
deriving DecidableEq, Repr

/-- Key membership in the association list backing a Python dict. -/
def dictHasKey : List (String × HeaderValue) → String → Bool
  | [], _ => false
  | p :: l, k => p.1 = k || dictHasKey l k

/-- Lookup in the association list backing a Python dict. -/
def dictFind : List (String × HeaderValue) → String → Option HeaderValue
  | [], _ => none
  | p :: l, k => if p.1 = k then some p.2 else dictFind l k

/-- Python `dict.update({k: v})`: replace the value in place when the key is
present (keeping its position), append otherwise. -/
def dictUpdate (l : List (String × HeaderValue)) (k : String) (v : HeaderValue) :
    List (String × HeaderValue) :=
  if dictHasKey l k then
    l.map (fun p => if p.1 = k then (k, v) else p)
  else
    l ++ [(k, v)]

/-- Dict lookup on the soap-headers state. -/
def lookupHeader : SoapHeaders → String → Option HeaderValue
  | SoapHeaders.notDict, _ => none
  | SoapHeaders.dict l, k => dictFind l k

/-- `FlyDocService._addHeader`: read `client.options.soapheaders`, start from
an empty dict when it is not a dict, update the entry, store it back. -/
def FlyDocService._addHeader (soapheaders : SoapHeaders) (headerName : String)
    (headerValue : HeaderValue) : SoapHeaders :=
  let headers := match soapheaders with
    | SoapHeaders.dict l => l
    | SoapHeaders.notDict => []
  SoapHeaders.dict (dictUpdate headers headerName headerValue)

/-! ## Service proxies and the facade state -/

/-- Local, observable state of one `FlyDocService` proxy: its soap headers and
the endpoint location set through `_set_options`. -/
structure ServiceState where
  soapheaders : SoapHeaders
  location : Option String
deriving DecidableEq, Repr

/-- Which of the three service proxies a remote call goes through. -/
inductive ServiceTag where
  | sessionSvc
  | submissionSvc
  | querySvc
deriving DecidableEq, Repr

/-- A remote call as emitted on the wire: the operation name together with the
soap headers the proxy carries at call time. -/
structure EmittedCall where
  service : ServiceTag
  operation : String
  headers : SoapHeaders
deriving DecidableEq, Repr

/-- Emitting a call on a proxy sends the proxy's current soap headers. -/
def serviceCall (tag : ServiceTag) (op : String) (s : ServiceState) : EmittedCall :=
  { service := tag, operation := op, headers := s.soapheaders }

/-- `GetBindings` response: per-user endpoint locations. -/
structure BindingsResponse where
  sessionServiceLocation : String
  submissionServiceLocation : String
  queryServiceLocation : String
deriving DecidableEq, Repr

/-- `Login` response (the part the code reads). -/
structure LoginResponse where
  sessionID : String
deriving DecidableEq, Repr

/-- Local state of the `FlyDoc` facade: the three service proxies plus the
stored `loginInfo` (absent before any login). -/
structure FlyDocState where
  sessionService : ServiceState
  submissionService : ServiceState
  queryService : ServiceState
  loginInfo : Option LoginResponse
deriving DecidableEq, Repr

/-- `FlyDoc.login(username, password)` after the remote `GetBindings` and
`Login` calls succeeded with the given responses: rebind the three service
locations, store the login info, build a `SessionHeader` carrying the
response's sessionID and attach it under the name `SessionHeaderValue` on all
three proxies. -/
def FlyDoc.login (st : FlyDocState) (bindings : BindingsResponse)
    (loginInfo : LoginResponse) : FlyDocState :=
  let st1 : FlyDocState :=
    { st with
      sessionService := { st.sessionService with
        location := some bindings.sessionServiceLocation }
      submissionService := { st.submissionService with
        location := some bindings.submissionServiceLocation }
      queryService := { st.queryService with
        location := some bindings.queryServiceLocation } }
  let st2 : FlyDocState := { st1 with loginInfo := some loginInfo }
  let sessionHeaderValue : HeaderValue :=
    HeaderValue.session { sessionID := some loginInfo.sessionID }
  { st2 with
    sessionService := { st2.sessionService with
      soapheaders := FlyDocService._addHeader st2.sessionService.soapheaders
        "SessionHeaderValue" sessionHeaderValue }
    submissionService := { st2.submissionService with
      soapheaders := FlyDocService._addHeader st2.submissionService.soapheaders
        "SessionHeaderValue" sessionHeaderValue }
    queryService := { st2.queryService with
      soapheaders := FlyDocService._addHeader st2.queryService.soapheaders
        "SessionHeaderValue" sessionHeaderValue } }

/-- `FlyDoc.logout`: the body is the single statement
`self.sessionService.Logout()`; it emits one remote call on the session
service and touches no local state, whether or not a login happened. -/
def FlyDoc.logout (st : FlyDocState) : FlyDocState × List EmittedCall :=
  (st, [serviceCall ServiceTag.sessionSvc "Logout" st.sessionService])

/-! ## Attribute forwarding (`FlyDocService.__getattr__`) -/

/-- The observable attribute surface of a suds client: names available on the
client object itself and operations available on `client.service`. -/
structure ClientModel where
  clientAttrs : List String
  serviceOps : List String
deriving DecidableEq, Repr

/-- Result of an attribute lookup that fell through to `__getattr__`. -/
inductive AttrResult where
  | clientAttr (name : String)
  | serviceOp (name : String)
  | attributeError (name : String)
deriving DecidableEq, Repr

/-- `FlyDocService.__getattr__(name)` (invoked only when `name` is not found
on the instance): underscore-prefixed names with the underscore stripped are
looked up on the client, then exact names on `client.service`, otherwise an
`AttributeError` naming the attribute is raised. -/
def FlyDocService.getattrFallback (c : ClientModel) (name : String) : AttrResult :=
  if name.startsWith "_" && c.clientAttrs.contains (name.drop 1) then
    AttrResult.clientAttr (name.drop 1)
  else if c.serviceOps.contains name then
    AttrResult.serviceOp name
  else
    AttrResult.attributeError name

/-! ## Submission service: files and transports -/

/-- The `WSFILE_MODE` enumeration constant used by the code. -/
inductive WSFILE_MODE_Value where
  | MODE_INLINED
deriving DecidableEq, Repr

/-- The `VAR_TYPE` enumeration constant used by the code. -/
inductive VAR_TYPE_Value where
  | TYPE_STRING
deriving DecidableEq, Repr

/-- The standard base64 alphabet. -/
def base64Alphabet : List Char :=
  [ 'A', 'B', 'C', 'D', 'E', 'F', 'G', 'H', 'I', 'J', 'K', 'L', 'M',
    'N', 'O', 'P', 'Q', 'R', 'S', 'T', 'U', 'V', 'W', 'X', 'Y', 'Z',
    'a', 'b', 'c', 'd', 'e', 'f', 'g', 'h', 'i', 'j', 'k', 'l', 'm',
    'n', 'o', 'p', 'q', 'r', 's', 't', 'u', 'v', 'w', 'x', 'y', 'z',
    '0', '1', '2', '3', '4', '5', '6', '7', '8', '9', '+', '/' ]

/-- Character for one 6-bit group. -/
def b64Char (n : Nat) : Char := base64Alphabet.getD n 'A'

/-- `base64.b64encode` on a byte sequence (RFC 4648, with `=` padding). -/
def base64Encode : List Nat → List Char
  | [] => []
  | [a] => [b64Char (a / 4), b64Char (a % 4 * 16), '=', '=']
  | [a, b] => [b64Char (a / 4), b64Char (a % 4 * 16 + b / 16), b64Char (b % 16 * 4), '=']
  | a :: b :: c :: rest =>
    b64Char (a / 4) :: b64Char (a % 4 * 16 + b / 16) ::
      b64Char (b % 16 * 4 + c / 64) :: b64Char (c % 64) :: base64Encode rest

/-- `os.path.basename`: the part of the path after the last slash. -/
def basename (p : String) : String := (p.splitOn "/").getLastD ""

/-- A `WSFile` complex value; fields are unset on creation. -/
structure WSFile where
  name : Option String
  mode : Option WSFILE_MODE_Value
  content : Option (List Char)
deriving DecidableEq, Repr

/-- `factory.create('WSFile')`: all fields unset. -/
def WSFile.empty : WSFile := { name := none, mode := none, content := none }

/-- `FlyDocSubmissionService._readFile(attachment)`: build a `WSFile` named
after the basename of the path, inlined, whose content is the base64 encoding
of the bytes read from the file.  The disk is modelled as a map from path to
byte contents. -/
def FlyDocSubmissionService._readFile (disk : String → List Nat)
    (attachment : String) : WSFile :=
  let wsFile := WSFile.empty
  let wsFile := { wsFile with name := some (basename attachment) }
  let wsFile := { wsFile with mode := some WSFILE_MODE_Value.MODE_INLINED }
  let wsFile := { wsFile with content := some (base64Encode (disk attachment)) }
  wsFile

/-- `FlyDocSubmissionService._createFile(name, data)`: build a `WSFile` with
the supplied name, inlined, whose content is the base64 encoding of `data`. -/
def FlyDocSubmissionService._createFile (name : String) (data : List Nat) : WSFile :=
  let wsFile := WSFile.empty
  let wsFile := { wsFile with name := some name }
  let wsFile := { wsFile with mode := some WSFILE_MODE_Value.MODE_INLINED }
  let wsFile := { wsFile with content := some (base64Encode data) }
  wsFile

/-- A `Var` complex value as created by `submit`. -/
structure Var where
  «attribute» : Option String
  simpleValue : Option String
  type : Option VAR_TYPE_Value
deriving DecidableEq, Repr

/-- An `Attachment` complex value as created by `submit`. -/
structure Attachment where
  sourceAttachment : Option WSFile
deriving DecidableEq, Repr

/-- A `Transport` complex value: name, the `vars.Var` list and the
`attachments.Attachment` list (both empty on creation). -/
structure Transport where
  transportName : Option String
  vars : List Var
  attachments : List Attachment
deriving DecidableEq, Repr

/-- One in-memory content passed to `submit` in `transportContents`:
a dict with a name and raw data. -/
structure ContentSpec where
  name : String
  data : List Nat
deriving DecidableEq, Repr

/-- `FlyDoc.submit(name, transportVars, transportAttachments,
transportContents)` up to the remote `SubmitTransport` call: the `Transport`
value it builds and submits.  `transportVars` is the mapping in its iteration
order; the two optional arguments default to empty collections.  Vars are
extended first, then attachments read from disk, then in-memory contents. -/
def FlyDoc.submit (disk : String → List Nat) (name : String)
    (transportVars : List (String × String))
    (transportAttachments : Option (List String))
    (transportContents : Option (List ContentSpec)) : Transport :=
  let tAttachments := match transportAttachments with
    | none => []
    | some l => l
  let tContents := match transportContents with
    | none => []
    | some l => l
  let transport : Transport := { transportName := none, vars := [], attachments := [] }
  let transport := { transport with transportName := some name }
  let transport := { transport with
    vars := transport.vars ++ transportVars.map (fun (p : String × String) =>
      ({ «attribute» := some p.1, simpleValue := some p.2,
         type := some VAR_TYPE_Value.TYPE_STRING } : Var)) }
  let transport := { transport with
    attachments := transport.attachments ++ tAttachments.map (fun (a : String) =>
      ({ sourceAttachment := some (FlyDocSubmissionService._readFile disk a) } : Attachment)) }
  let transport := { transport with
    attachments := transport.attachments ++ tContents.map (fun (c : ContentSpec) =>
      ({ sourceAttachment := some (FlyDocSubmissionService._createFile c.name c.data) } : Attachment)) }
  transport

/-! ## Query service: browse -/

/-- The four paging operations of the query service. -/
inductive QueryCall where
  | queryFirst
  | queryLast
  | queryNext
  | queryPrevious
deriving DecidableEq, Repr

/-- The `QueryRequest` complex value built once by `browse` and reused for
every paging call. -/
structure QueryRequest where
  nItems : Nat
  filter : String
  sortOrder : String
  attributes : String
  includeSubNodes : Bool
  searchInArchive : Bool
deriving DecidableEq, Repr

/-- A query response: the transport count, the `transports.Transport` list
(items identified by a number) and the `noMoreItems` flag. -/
structure QueryResponse where
  nTransports : Nat
  transports : List Nat
  noMoreItems : Bool
deriving DecidableEq, Repr

/-- One paging call in a browse run: the operation, the request it was sent
with, and the response the server returned. -/
structure BrowseStep where
  call : QueryCall
  request : QueryRequest
  response : QueryResponse
deriving DecidableEq, Repr

/-- The observable outcome of running a browse generator to the end:
the paging calls in order, the yielded transports in order, and whether the
loop terminated (rather than running out of fuel). -/
structure BrowseResult where
  steps : List BrowseStep
  yields : List Nat
  finished : Bool
deriving DecidableEq, Repr

/-- The `while` condition of `browse`:
`not result.noMoreItems and (nItems is not None and totalNumber < nItems)`. -/
def loopCond (result : QueryResponse) (nItems : Option Nat) (totalNumber : Nat) : Bool :=
  !result.noMoreItems && (match nItems with
    | some n => decide (totalNumber < n)
    | none => false)

/-- The paging loop of `browse`: while the condition holds, issue `QueryNext`
(or `QueryPrevious` with `reverse`), add the response's `nTransports` to the
running total and yield the head transport when the response is non-empty.
`server k` is the server's response to the k-th follow-up call; `fuel` bounds
the modelled execution, `finished` records whether the loop exited on its
condition. -/
def browseLoop (reverse : Bool) (nItems : Option Nat) (request : QueryRequest)
    (server : Nat → QueryResponse) (fuel k : Nat) (result : QueryResponse)
    (totalNumber : Nat) : BrowseResult :=
  match fuel with
  | 0 => { steps := [], yields := [], finished := !loopCond result nItems totalNumber }
  | fuel' + 1 =>
    if loopCond result nItems totalNumber then
      let resp := server k
      let rest := browseLoop reverse nItems request server fuel' (k + 1) resp
        (totalNumber + resp.nTransports)
      { steps := { call := if !reverse then QueryCall.queryNext else QueryCall.queryPrevious,
                   request := request, response := resp } :: rest.steps
        yields := (if resp.nTransports > 0 then [resp.transports.headD 0] else [])
          ++ rest.yields
        finished := rest.finished }
    else
      { steps := [], yields := [], finished := true }

/-- `FlyDoc.browse(filter, sortOrder, attributes, nItems, includeSubNodes,
searchInArchive, reverse)`: build a `QueryRequest` with page size 1, issue
`QueryFirst` (or `QueryLast` with `reverse`) answered by `firstResponse`,
yield its head transport when non-empty, then run the paging loop.  (The
`QueryHeaderValue` header attachment is covered by the header model.) -/
def FlyDoc.browse (filter sortOrder attributes : String) (nItems : Option Nat)
    (includeSubNodes searchInArchive reverse : Bool)
    (firstResponse : QueryResponse) (server : Nat → QueryResponse)
    (fuel : Nat) : BrowseResult :=
  let request : QueryRequest :=
    { nItems := 1, filter := filter, sortOrder := sortOrder,
      attributes := attributes, includeSubNodes := includeSubNodes,
      searchInArchive := searchInArchive }
  let firstCall := if !reverse then QueryCall.queryFirst else QueryCall.queryLast
  let result := firstResponse
  let totalNumber := result.nTransports
  let firstYield := if result.nTransports > 0 then [result.transports.headD 0] else []
  let rest := browseLoop reverse nItems request server fuel 0 result totalNumber
  { steps := { call := firstCall, request := request, response := result } :: rest.steps
    yields := firstYield ++ rest.yields
    finished := rest.finished }

/-- Checks that every paging call in the list was guarded by the loop
condition evaluated on the previous response and the running total at the
time of the call (so no call is issued after a `noMoreItems` response or once
the total reached the cap). -/
def loopCallsGuarded (nItems : Option Nat) : QueryResponse → Nat → List BrowseStep → Bool
  | _, _, [] => true
  | prev, total, s :: rest =>
    loopCond prev nItems total &&
      loopCallsGuarded nItems s.response (total + s.response.nTransports) rest

/-! ## Lemmas about the header dictionary -/

theorem dictFind_set_self (k : String) (v : HeaderValue) :
    ∀ l, dictHasKey l k = true →
      dictFind (l.map (fun p => if p.1 = k then (k, v) else p)) k = some v
  | [], h => by simp [dictHasKey] at h
  | p :: l, h => by
    by_cases hp : p.1 = k
    · simp [dictFind, hp]
    · simp only [dictHasKey, Bool.or_eq_true, decide_eq_true_eq, hp, false_or] at h
      simp [dictFind, hp, dictFind_set_self k v l h]

theorem dictFind_append_self (k : String) (v : HeaderValue) :
    ∀ l, dictHasKey l k = false →
      dictFind (l ++ [(k, v)]) k = some v
  | [], _ => by simp [dictFind]
  | p :: l, h => by
    simp only [dictHasKey, Bool.or_eq_false_iff, decide_eq_false_iff_not] at h
    simp [dictFind, h.1, dictFind_append_self k v l h.2]

theorem dictFind_set_other (k k' : String) (v : HeaderValue) (hne : k' ≠ k) :
    ∀ l, dictFind (l.map (fun p => if p.1 = k then (k, v) else p)) k'
      = dictFind l k'
  | [] => rfl
  | p :: l => by
    have hkk : ¬(k = k') := fun h => hne h.symm
    by_cases hp : p.1 = k
    · simp [dictFind, hp, hkk, dictFind_set_other k k' v hne l]
    · by_cases hp' : p.1 = k'
      · simp [dictFind, hp, hp', hne]
      · simp [dictFind, hp, hp', dictFind_set_other k k' v hne l]

theorem dictFind_append_other (k k' : String) (v : HeaderValue) (hne : k' ≠ k) :
    ∀ l, dictFind (l ++ [(k, v)]) k' = dictFind l k'
  | [] => by
    have hkk : ¬(k = k') := fun h => hne h.symm
    simp [dictFind, hkk]
  | p :: l => by
    by_cases hp : p.1 = k'
    · simp [dictFind, hp]
    · simp [dictFind, hp, dictFind_append_other k k' v hne l]

theorem dictFind_dictUpdate_self (k : String) (v : HeaderValue)
    (l : List (String × HeaderValue)) :
    dictFind (dictUpdate l k v) k = some v := by
  unfold dictUpdate
  by_cases h : dictHasKey l k = true
  · simp only [h, if_true]
    exact dictFind_set_self k v l h
  · simp only [Bool.not_eq_true] at h
    simp only [h, Bool.false_eq_true, if_false]
    exact dictFind_append_self k v l h

theorem dictFind_dictUpdate_other (k k' : String) (v : HeaderValue)
    (hne : k' ≠ k) (l : List (String × HeaderValue)) :
    dictFind (dictUpdate l k v) k' = dictFind l k' := by
  unfold dictUpdate
  by_cases h : dictHasKey l k = true
  · simp only [h, if_true]
    exact dictFind_set_other k k' v hne l
  · simp only [Bool.not_eq_true] at h
    simp only [h, Bool.false_eq_true, if_false]
    exact dictFind_append_other k k' v hne l

theorem lookupHeader_addHeader_self (hs : SoapHeaders) (k : String) (v : HeaderValue) :
    lookupHeader (FlyDocService._addHeader hs k v) k = some v := by
  cases hs with
  | notDict =>
    simp [FlyDocService._addHeader, lookupHeader, dictFind_dictUpdate_self]
  | dict l =>
    simp [FlyDocService._addHeader, lookupHeader, dictFind_dictUpdate_self]

theorem lookupHeader_addHeader_other (hs : SoapHeaders) (k k' : String)
    (v : HeaderValue) (hne : k' ≠ k) :
    lookupHeader (FlyDocService._addHeader hs k v) k' = lookupHeader hs k' := by
  cases hs with
  | notDict =>
    simp only [FlyDocService._addHeader, lookupHeader]
    rw [dictFind_dictUpdate_other k k' v hne]
    rfl
  | dict l =>
    simp only [FlyDocService._addHeader, lookupHeader]
    exact dictFind_dictUpdate_other k k' v hne l

/-! ## Claim theorems: headers, login, logout, getattr, submit -/

/-- Claim C10: `FlyDocService._addHeader(headerName, headerValue)` preserves
every previously set soap header entry whose name differs from `headerName`;
in particular, attaching the `QueryHeaderValue` cursor header in `browse`
leaves the `SessionHeaderValue` session header in place. -/
theorem addHeader_preserves_other_headers (hs : SoapHeaders) (k k' : String)
    (v : HeaderValue) (hne : k' ≠ k) :
    lookupHeader (FlyDocService._addHeader hs k v) k' = lookupHeader hs k' ∧
    (∀ qv : HeaderValue,
      lookupHeader (FlyDocService._addHeader hs "QueryHeaderValue" qv)
        "SessionHeaderValue" = lookupHeader hs "SessionHeaderValue") ∧
    (∀ qv : HeaderValue, ∀ sv : HeaderValue,
      lookupHeader hs "SessionHeaderValue" = some sv →
      lookupHeader (FlyDocService._addHeader hs "QueryHeaderValue" qv)
        "SessionHeaderValue" = some sv) := by
  refine ⟨lookupHeader_addHeader_other hs k k' v hne, ?_, ?_⟩
  · intro qv
    exact lookupHeader_addHeader_other hs "QueryHeaderValue" "SessionHeaderValue" qv
      (by decide)
  · intro qv sv hsv
    rw [lookupHeader_addHeader_other hs "QueryHeaderValue" "SessionHeaderValue" qv
      (by decide)]
    exact hsv

/-- Witness for C10 at a concrete header state. -/
theorem addHeader_preserves_other_headers_witness :
    ("SessionHeaderValue" : String) ≠ "QueryHeaderValue" ∧
    lookupHeader
        (FlyDocService._addHeader
          (SoapHeaders.dict
            [("SessionHeaderValue", HeaderValue.session { sessionID := some "sid" })])
          "QueryHeaderValue" (HeaderValue.query { queryID := some "qid" }))
        "SessionHeaderValue"
      = lookupHeader
          (SoapHeaders.dict
            [("SessionHeaderValue", HeaderValue.session { sessionID := some "sid" })])
          "SessionHeaderValue" :=
  ⟨by decide,
    (addHeader_preserves_other_headers
      (SoapHeaders.dict
        [("SessionHeaderValue", HeaderValue.session { sessionID := some "sid" })])
      "QueryHeaderValue" "SessionHeaderValue"
      (HeaderValue.query { queryID := some "qid" }) (by decide)).1⟩

/-- Claim C1: after a successful `FlyDoc.login(username, password)`, the
session, submission and query service proxies all carry a
`SessionHeaderValue` soap header holding the sessionID extracted from the
Login response, and every call subsequently emitted on any of the three
proxies (while their headers are unchanged) carries that header. -/
theorem login_sets_session_header_on_all_services (st : FlyDocState)
    (bindings : BindingsResponse) (r : LoginResponse) :
    lookupHeader (FlyDoc.login st bindings r).sessionService.soapheaders
        "SessionHeaderValue"
      = some (HeaderValue.session { sessionID := some r.sessionID }) ∧
    lookupHeader (FlyDoc.login st bindings r).submissionService.soapheaders
        "SessionHeaderValue"
      = some (HeaderValue.session { sessionID := some r.sessionID }) ∧
    lookupHeader (FlyDoc.login st bindings r).queryService.soapheaders
        "SessionHeaderValue"
      = some (HeaderValue.session { sessionID := some r.sessionID }) ∧
    (∀ op, lookupHeader
        (serviceCall ServiceTag.sessionSvc op
          (FlyDoc.login st bindings r).sessionService).headers "SessionHeaderValue"
      = some (HeaderValue.session { sessionID := some r.sessionID })) ∧
    (∀ op, lookupHeader
        (serviceCall ServiceTag.submissionSvc op
          (FlyDoc.login st bindings r).submissionService).headers "SessionHeaderValue"
      = some (HeaderValue.session { sessionID := some r.sessionID })) ∧
    (∀ op, lookupHeader
        (serviceCall ServiceTag.querySvc op
          (FlyDoc.login st bindings r).queryService).headers "SessionHeaderValue"
      = some (HeaderValue.session { sessionID := some r.sessionID })) := by
  refine ⟨?_, ?_, ?_, fun op => ?_, fun op => ?_, fun op => ?_⟩ <;>
    exact lookupHeader_addHeader_self _ "SessionHeaderValue"
      (HeaderValue.session { sessionID := some r.sessionID })

/-- Claim C8: `FlyDoc.logout()` issues exactly one remote call, the `Logout`
operation on the session service, and leaves the whole local state (in
particular the soap headers of all three proxies) unchanged; it is defined on
every state, including one where no login ever happened (`loginInfo = none`),
so it raises no local error. -/
theorem logout_single_call_preserves_state (st : FlyDocState) :
    FlyDoc.logout st
      = (st, [{ service := ServiceTag.sessionSvc, operation := "Logout",
                headers := st.sessionService.soapheaders }]) ∧
    (FlyDoc.logout st).1 = st ∧
    (FlyDoc.logout st).2.length = 1 ∧
    (FlyDoc.logout st).2.map EmittedCall.service = [ServiceTag.sessionSvc] ∧
    (FlyDoc.logout
        { sessionService := st.sessionService,
          submissionService := st.submissionService,
          queryService := st.queryService, loginInfo := none }).1
      = { sessionService := st.sessionService,
          submissionService := st.submissionService,
          queryService := st.queryService, loginInfo := none } :=
  ⟨rfl, rfl, rfl, rfl, rfl⟩

/-- Claim C9: for every name that falls through to
`FlyDocService.__getattr__`, the lookup returns the client attribute with the
underscore stripped when the name starts with an underscore and that client
attribute exists, else the remote operation when `client.service` has the
exact name, else it raises an `AttributeError` naming the attribute — and
these are the only three outcomes. -/
theorem getattr_trichotomy (c : ClientModel) (name : String) :
    (FlyDocService.getattrFallback c name = AttrResult.clientAttr (name.drop 1)
      ↔ name.startsWith "_" = true ∧ name.drop 1 ∈ c.clientAttrs) ∧
    (FlyDocService.getattrFallback c name = AttrResult.serviceOp name
      ↔ ¬(name.startsWith "_" = true ∧ name.drop 1 ∈ c.clientAttrs)
        ∧ name ∈ c.serviceOps) ∧
    (FlyDocService.getattrFallback c name = AttrResult.attributeError name
      ↔ ¬(name.startsWith "_" = true ∧ name.drop 1 ∈ c.clientAttrs)
        ∧ name ∉ c.serviceOps) ∧
    (FlyDocService.getattrFallback c name = AttrResult.clientAttr (name.drop 1)
      ∨ FlyDocService.getattrFallback c name = AttrResult.serviceOp name
      ∨ FlyDocService.getattrFallback c name = AttrResult.attributeError name) := by
  unfold FlyDocService.getattrFallback
  by_cases h1 : name.startsWith "_" = true <;>
    by_cases h2 : name.drop 1 ∈ c.clientAttrs <;>
      by_cases h3 : name ∈ c.serviceOps <;>
        simp [h1, h2, h3]

/-- Claim C2: the Transport built by `FlyDoc.submit` carries exactly one Var
per entry of `transportVars`, in iteration order, with attribute and
simpleValue from the pair and type `TYPE_STRING`; its name is the given
transport name. -/
theorem submit_vars_spec (disk : String → List Nat) (name : String)
    (transportVars : List (String × String)) (ta : Option (List String))
    (tc : Option (List ContentSpec)) :
    (FlyDoc.submit disk name transportVars ta tc).vars
      = transportVars.map (fun p =>
          { «attribute» := some p.1, simpleValue := some p.2,
            type := some VAR_TYPE_Value.TYPE_STRING }) ∧
    (FlyDoc.submit disk name transportVars ta tc).vars.length
      = transportVars.length ∧
    (FlyDoc.submit disk name transportVars ta tc).transportName = some name := by
  refine ⟨rfl, ?_, rfl⟩
  show (transportVars.map _).length = transportVars.length
  exact List.length_map _ _

/-- Claim C3: the Transport built by `FlyDoc.submit` carries exactly K+M
attachments — first one per file path (in order), then one per in-memory
content (in order) — and an empty attachment list when both arguments are
omitted. -/
theorem submit_attachments_spec (disk : String → List Nat) (name : String)
    (tv : List (String × String)) (as : List String) (cs : List ContentSpec) :
    (FlyDoc.submit disk name tv (some as) (some cs)).attachments
      = as.map (fun a =>
          { sourceAttachment := some (FlyDocSubmissionService._readFile disk a) })
        ++ cs.map (fun c =>
          { sourceAttachment :=
              some (FlyDocSubmissionService._createFile c.name c.data) }) ∧
    (FlyDoc.submit disk name tv (some as) (some cs)).attachments.length
      = as.length + cs.length ∧
    (FlyDoc.submit disk name tv none none).attachments = [] := by
  refine ⟨rfl, ?_, rfl⟩
  show (as.map _ ++ cs.map _).length = as.length + cs.length
  simp

/-- Claim C4: `FlyDocSubmissionService._readFile` builds a WSFile named after
the basename of the path, with mode `MODE_INLINED`, whose content is the
base64 encoding of the bytes read from the file on disk. -/
theorem readFile_builds_inlined_base64_wsfile (disk : String → List Nat)
    (path : String) :
    (FlyDocSubmissionService._readFile disk path).name = some (basename path) ∧
    (FlyDocSubmissionService._readFile disk path).mode
      = some WSFILE_MODE_Value.MODE_INLINED ∧
    (FlyDocSubmissionService._readFile disk path).content
      = some (base64Encode (disk path)) :=
  ⟨rfl, rfl, rfl⟩

/-! ## Lemmas about the browse paging loop -/

theorem browseLoop_none (reverse : Bool) (request : QueryRequest)
    (server : Nat → QueryResponse) (fuel k : Nat) (result : QueryResponse)
    (totalNumber : Nat) :
    browseLoop reverse none request server fuel k result totalNumber
      = { steps := [], yields := [], finished := true } := by
  cases fuel <;> simp [browseLoop, loopCond]

theorem browseLoop_calls (reverse : Bool) (nItems : Option Nat)
    (request : QueryRequest) (server : Nat → QueryResponse) :
    ∀ fuel k result totalNumber,
      (browseLoop reverse nItems request server fuel k result totalNumber).steps.map
          BrowseStep.call
        = List.replicate
            (browseLoop reverse nItems request server fuel k result totalNumber).steps.length
            (if !reverse then QueryCall.queryNext else QueryCall.queryPrevious) ∧
      ∀ s ∈ (browseLoop reverse nItems request server fuel k result totalNumber).steps,
        s.request = request := by
  intro fuel
  induction fuel with
  | zero => intro k result total; simp [browseLoop]
  | succ fuel ih =>
    intro k result total
    by_cases h : loopCond result nItems total = true
    · obtain ⟨ih1, ih2⟩ := ih (k + 1) (server k) (total + (server k).nTransports)
      simp only [browseLoop, h, if_true]
      refine ⟨?_, ?_⟩
      · simp [List.replicate_succ, ih1]
      · intro s hs
        rw [List.mem_cons] at hs
        cases hs with
        | inl h' => rw [h']
        | inr h' => exact ih2 s h'
    · simp [browseLoop, h]

theorem browseLoop_yields_le (reverse : Bool) (request : QueryRequest)
    (server : Nat → QueryResponse) (n : Nat) :
    ∀ fuel k result totalNumber,
      (browseLoop reverse (some n) request server fuel k result totalNumber).yields.length
        ≤ n - totalNumber := by
  intro fuel
  induction fuel with
  | zero => intro k result total; simp [browseLoop]
  | succ fuel ih =>
    intro k result total
    by_cases h : loopCond result (some n) total = true
    · have htot : total < n := by
        simp only [loopCond, Bool.and_eq_true, decide_eq_true_eq] at h
        exact h.2
      have hrest := ih (k + 1) (server k) (total + (server k).nTransports)
      simp only [browseLoop, h, if_true]
      by_cases hn : (server k).nTransports > 0
      · simp only [hn, if_true, List.length_append, List.length_cons,
          List.length_nil]
        omega
      · have hz : (server k).nTransports = 0 := by omega
        simp only [hn, if_false, List.length_append, List.length_nil]
        omega
    · simp [browseLoop, h]

theorem browseLoop_guarded (reverse : Bool) (nItems : Option Nat)
    (request : QueryRequest) (server : Nat → QueryResponse) :
    ∀ fuel k result totalNumber,
      loopCallsGuarded nItems result totalNumber
        (browseLoop reverse nItems request server fuel k result totalNumber).steps
        = true := by
  intro fuel
  induction fuel with
  | zero => intro k result total; simp [browseLoop, loopCallsGuarded]
  | succ fuel ih =>
    intro k result total
    by_cases h : loopCond result nItems total = true
    · simp only [browseLoop, h, if_true]
      simp [loopCallsGuarded, h,
        ih (k + 1) (server k) (total + (server k).nTransports)]
    · simp [browseLoop, h, loopCallsGuarded]

/-! ## Claim theorems: browse -/

/-- Claim C5: a browse run with `reverse=false` issues exactly one
`QueryFirst`, as its first call, followed only by `QueryNext` calls (no
`QueryLast`, no `QueryPrevious`); symmetrically with `reverse=true` one
`QueryLast` followed only by `QueryPrevious`; and every request carries
`nItems = 1`. -/
theorem browse_call_order (f so a : String) (nI : Option Nat) (inc arch : Bool)
    (first : QueryResponse) (server : Nat → QueryResponse) (fuel : Nat) :
    (∃ m, (FlyDoc.browse f so a nI inc arch false first server fuel).steps.map
        BrowseStep.call
      = QueryCall.queryFirst :: List.replicate m QueryCall.queryNext) ∧
    (∀ s ∈ (FlyDoc.browse f so a nI inc arch false first server fuel).steps,
      s.request.nItems = 1) ∧
    (∃ m, (FlyDoc.browse f so a nI inc arch true first server fuel).steps.map
        BrowseStep.call
      = QueryCall.queryLast :: List.replicate m QueryCall.queryPrevious) ∧
    (∀ s ∈ (FlyDoc.browse f so a nI inc arch true first server fuel).steps,
      s.request.nItems = 1) := by
  obtain ⟨hcf, hrf⟩ := browseLoop_calls false nI
    { nItems := 1, filter := f, sortOrder := so, attributes := a,
      includeSubNodes := inc, searchInArchive := arch } server fuel 0 first
    first.nTransports
  obtain ⟨hct, hrt⟩ := browseLoop_calls true nI
    { nItems := 1, filter := f, sortOrder := so, attributes := a,
      includeSubNodes := inc, searchInArchive := arch } server fuel 0 first
    first.nTransports
  refine ⟨⟨(browseLoop false nI
    { nItems := 1, filter := f, sortOrder := so, attributes := a,
      includeSubNodes := inc, searchInArchive := arch } server fuel 0 first
    first.nTransports).steps.length, ?_⟩, ?_,
    ⟨(browseLoop true nI
      { nItems := 1, filter := f, sortOrder := so, attributes := a,
        includeSubNodes := inc, searchInArchive := arch } server fuel 0 first
      first.nTransports).steps.length, ?_⟩, ?_⟩
  · simp only [FlyDoc.browse, List.map_cons]
    rw [hcf]
    simp
  · intro s hs
    simp only [FlyDoc.browse, List.mem_cons] at hs
    cases hs with
    | inl h' => rw [h']
    | inr h' => rw [hrf s h']
  · simp only [FlyDoc.browse, List.map_cons]
    rw [hct]
    simp
  · intro s hs
    simp only [FlyDoc.browse, List.mem_cons] at hs
    cases hs with
    | inl h' => rw [h']
    | inr h' => rw [hrt s h']

/-- Claim C6: with a positive cap `nItems = n`, a browse run yields at most
`n` transports in total, and every paging call was guarded by the loop
condition on the previous response and the running total — so no
`QueryNext`/`QueryPrevious` is issued after a response with `noMoreItems`
set, nor once the running count reached the cap. -/
theorem browse_respects_cap_and_noMoreItems (f so a : String) (n : Nat)
    (inc arch rev : Bool) (first : QueryResponse) (server : Nat → QueryResponse)
    (fuel : Nat) (hn : 0 < n) :
    (FlyDoc.browse f so a (some n) inc arch rev first server fuel).yields.length
      ≤ n ∧
    loopCallsGuarded (some n) first first.nTransports
      (FlyDoc.browse f so a (some n) inc arch rev first server fuel).steps.tail
      = true := by
  constructor
  · have hl := browseLoop_yields_le rev
      { nItems := 1, filter := f, sortOrder := so, attributes := a,
        includeSubNodes := inc, searchInArchive := arch } server n fuel 0 first
      first.nTransports
    by_cases h0 : first.nTransports > 0
    · simp only [FlyDoc.browse, h0, if_true, List.length_append, List.length_cons,
        List.length_nil]
      omega
    · simp only [FlyDoc.browse, h0, if_false, List.length_append, List.length_nil]
      omega
  · simp only [FlyDoc.browse, List.tail_cons]
    exact browseLoop_guarded rev (some n)
      { nItems := 1, filter := f, sortOrder := so, attributes := a,
        includeSubNodes := inc, searchInArchive := arch } server fuel 0 first
      first.nTransports

/-- Witness for C6 on a concrete two-page run. -/
theorem browse_respects_cap_witness :
    0 < 2 ∧
    ((FlyDoc.browse "msn=*" "" "" (some 2) false false false
        { nTransports := 1, transports := [10], noMoreItems := false }
        (fun _ => { nTransports := 1, transports := [20], noMoreItems := true })
        5).yields.length ≤ 2 ∧
      loopCallsGuarded (some 2)
        { nTransports := 1, transports := [10], noMoreItems := false }
        ({ nTransports := 1, transports := [10], noMoreItems := false }
          : QueryResponse).nTransports
        (FlyDoc.browse "msn=*" "" "" (some 2) false false false
          { nTransports := 1, transports := [10], noMoreItems := false }
          (fun _ => { nTransports := 1, transports := [20], noMoreItems := true })
          5).steps.tail = true) :=
  ⟨by decide,
    browse_respects_cap_and_noMoreItems "msn=*" "" "" 2 false false false
      { nTransports := 1, transports := [10], noMoreItems := false }
      (fun _ => { nTransports := 1, transports := [20], noMoreItems := true })
      5 (by decide)⟩

/-- Claim C7: with `nItems` left at `None`, the loop condition never holds:
browse issues only the single initial `QueryFirst` (or `QueryLast`) call,
yields at most the one item of that first response, and issues no
`QueryNext`/`QueryPrevious`, whatever the server's `noMoreItems` flags say. -/
theorem browse_none_stalls_after_first_fetch (f so a : String)
    (inc arch rev : Bool) (first : QueryResponse)
    (server : Nat → QueryResponse) (fuel : Nat) :
    (FlyDoc.browse f so a none inc arch rev first server fuel).steps
      = [{ call := if !rev then QueryCall.queryFirst else QueryCall.queryLast,
           request := { nItems := 1, filter := f, sortOrder := so,
                        attributes := a, includeSubNodes := inc,
                        searchInArchive := arch },
           response := first }] ∧
    (FlyDoc.browse f so a none inc arch rev first server fuel).yields.length
      ≤ 1 ∧
    (FlyDoc.browse f so a none inc arch rev first server fuel).finished = true := by
  have hl := browseLoop_none rev
    { nItems := 1, filter := f, sortOrder := so, attributes := a,
      includeSubNodes := inc, searchInArchive := arch } server fuel 0 first
    first.nTransports
  refine ⟨?_, ?_, ?_⟩
  · simp [FlyDoc.browse, hl]
  · by_cases h0 : first.nTransports > 0 <;> simp [FlyDoc.browse, hl, h0]
  · simp [FlyDoc.browse, hl]

end PyFlyDoc
